import Mathlib

/-!
Verification of the grantscraper backend pipeline.

This file gives a shallow embedding, in Lean 4, of the parts of the
grantscraper repository that its specification makes claims about:

* the depth-bounded recursive crawler

  `backend/app/services/deep_scraper.py`
  (`scrape_url_recursive`, `deep_scrape_grants`),

* the retrying preliminary-scoring wrapper

  `backend/app/services/gemini_service.py`
  (`analyze_grant_preliminary`, `MAX_RETRIES`),

* the result store and its accessors

  `backend/app/access/results.py` (`ResultAccess`),
  `backend/app/access/grants.py` (`GrantAccess.get_by_ids`),
  `backend/app/models/gemini.py` (`gemini_to_sqlalchemy`),

* the pipeline orchestration steps that tie those together

  `backend/app/services/pipeline_service.py` (`run_pipeline`), and

* the status table

  `backend/app/services/pipeline_status.py`
  (`set_status`, `get_status`, `update_status`).

External effects are abstracted in the standard way: the browser
(Playwright page fetch) becomes a pure function from URLs to page data,
the database session becomes an explicit list of rows threaded through
the accessors, and the external LLM call becomes a function from attempt
numbers to optional results.  Machine behaviour that the claims quantify
over (which pages exist, what their links are, what the model answers)
is therefore universally quantified in the theorems.
-/

/-! ## URL helpers

Python's `urllib.parse.urlparse` is used by the crawler only through the
expression `f"{parsed.scheme}://{parsed.netloc}"`.  We model exactly that
projection, for URLs of the shape `scheme://netloc/rest` (the only shape
the crawler compares): the scheme is everything before the first `://`,
the netloc everything after it up to the first `/`, `?` or `#`.  A string
without `://` has empty scheme and netloc, so its projection is `"://"`,
mirroring `urlparse` on plain paths.
-/

/-- Model of Python `str.startswith`: `p` is a prefix of `s`. -/
def pyStartsWith (s p : String) : Bool := p.data.isPrefixOf s.data

/-- Split a character list at the first occurrence of `://`, returning
the characters before it and the characters after it. -/
def findSchemeSplit : List Char → Option (List Char × List Char)
  | [] => none
  | ':' :: '/' :: '/' :: rest => some ([], rest)
  | c :: rest => (findSchemeSplit rest).map (fun q => (c :: q.1, q.2))

/-- Model of `f"{urlparse(url).scheme}://{urlparse(url).netloc}"`, the
only use the crawler makes of `urlparse`. -/
def schemeDomain (url : String) : String :=
  match findSchemeSplit url.data with
  | none => "://"
  | some (schemeChars, rest) =>
    let netloc := rest.takeWhile (fun c => !(c == '/' || c == '?' || c == '#'))
    ⟨schemeChars⟩ ++ "://" ++ ⟨netloc⟩

/-! ## The recursive crawler

`backend/app/services/deep_scraper.py`.

`extract_page_content_and_links` performs the actual page fetch; its
result (content, outbound links after absolutisation and
order-preserving de-duplication, and optional error) is what
`scrape_url_recursive` consumes, so we abstract the whole function as
`Web : String → PageData`.

`scrape_url_recursive` recurses on the link structure; its termination
is guaranteed by `current_depth`, which grows by 1 at every recursive
call and is checked against `max_depth` before any recursion.  The
embedding `scrapeCore` therefore recurses structurally on
`remaining = max_depth - current_depth`; the Python guard
`current_depth >= max_depth` is exactly `remaining = 0`, and the
recursive call at `current_depth + 1` is exactly the call at
`remaining - 1`.  The wrapper `scrape_url_recursive` recovers the
source signature, including the `None` defaults for `visited_urls` and
`base_domain`.

Besides the returned tree and the threaded visited set, the embedding
returns a ghost `trace`: the list, in call order, of URLs actually
fetched (one entry per call to `extract_page_content_and_links`).  The
trace is write-only instrumentation; no definition reads it.
-/

/-- Result of one page fetch (`extract_page_content_and_links`):
content, outbound links, optional error message. -/
structure PageData where
  content : Option String
  links : List String
  error : Option String

/-- The abstract web: what fetching each URL yields. -/
def Web : Type := String → PageData

/-- A node of the crawl tree, mirroring the result dictionary of
`scrape_url_recursive`: url, content, links, nested_content, error. -/
inductive CrawlNode where
  | mk (url : String) (content : Option String) (links : List String)
      (nested_content : List CrawlNode) (error : Option String)

/-- The `url` field of a crawl node. -/
def CrawlNode.url : CrawlNode → String
  | .mk u _ _ _ _ => u

/-- The `content` field of a crawl node. -/
def CrawlNode.content : CrawlNode → Option String
  | .mk _ c _ _ _ => c

/-- The `links` field of a crawl node. -/
def CrawlNode.links : CrawlNode → List String
  | .mk _ _ ls _ _ => ls

/-- The `nested_content` field of a crawl node. -/
def CrawlNode.nested_content : CrawlNode → List CrawlNode
  | .mk _ _ _ ns _ => ns

/-- The `error` field of a crawl node. -/
def CrawlNode.error : CrawlNode → Option String
  | .mk _ _ _ _ e => e

/-- Result of one `scrape_url_recursive` call: the returned node, the
visited set after the call (the Python set is mutated in place), and
the ghost fetch trace. -/
structure CrawlStep where
  node : CrawlNode
  visited : List String
  trace : List String

/-- Result of the `for link_url in page_data["links"]` loop: the
accumulated `nested_content`, the visited set after the loop, and the
ghost fetch trace of the loop. -/
structure FollowStep where
  nodes : List CrawlNode
  visited : List String
  trace : List String

/-- The link-following loop of `scrape_url_recursive` (lines 141-165 of
`deep_scraper.py`), parameterised by the recursive call `child` (which
in `scrapeCore` is the crawl at depth `current_depth + 1`).  Each link
is skipped when the base domain is set and differs from the link's
scheme+netloc, or when the link is not http(s); otherwise the child
crawl runs and its node is appended. -/
def followLinks (child : String → List String → CrawlStep)
    (links : List String) (base_domain : String) (visited : List String) : FollowStep :=
  match links with
  | [] => ⟨[], visited, []⟩
  | link_url :: more =>
    if base_domain ≠ "" ∧ schemeDomain link_url ≠ base_domain then
      followLinks child more base_domain visited
    else if ¬ (pyStartsWith link_url "http://" || pyStartsWith link_url "https://") then
      followLinks child more base_domain visited
    else
      let c := child link_url visited
      let rest := followLinks child more base_domain c.visited
      ⟨c.node :: rest.nodes, rest.visited, c.trace ++ rest.trace⟩

/-- Core of `scrape_url_recursive`, with `remaining = max_depth -
current_depth`.  If the URL was already visited, a terminal node tagged
"Already visited (cycle prevention)" is returned without fetching.
Otherwise the URL is added to the visited set and fetched; when
`remaining = 0` (i.e. `current_depth >= max_depth`) the node's links are
reported but not followed, and otherwise each link is followed at
`remaining - 1` via `followLinks`. -/
def scrapeCore (web : Web) (url : String) (remaining : Nat)
    (visited : List String) (base_domain : String) : CrawlStep :=
  if url ∈ visited then
    { node := .mk url none [] [] (some "Already visited (cycle prevention)"),
      visited := visited, trace := [] }
  else
    let visited1 := url :: visited
    let pd := web url
    match remaining with
    | 0 =>
      { node := .mk url pd.content pd.links [] pd.error,
        visited := visited1, trace := [url] }
    | r + 1 =>
      let rest := followLinks (fun l v => scrapeCore web l r v base_domain)
        pd.links base_domain visited1
      { node := .mk url pd.content pd.links rest.nodes pd.error,
        visited := rest.visited, trace := url :: rest.trace }

/-- `scrape_url_recursive(page, url, current_depth, max_depth,
visited_urls, base_domain)`: the wrapper resolving the `None` defaults
(`visited_urls = set()`, `base_domain =
f"{urlparse(url).scheme}://{urlparse(url).netloc}"`) before the
recursion. -/
def scrape_url_recursive (web : Web) (url : String)
    (current_depth max_depth : Nat) (visited_urls : Option (List String))
    (base_domain : Option String) : CrawlStep :=
  scrapeCore web url (max_depth - current_depth) (visited_urls.getD [])
    (base_domain.getD (schemeDomain url))

/-- The fields of a grant row that `deep_scrape_grants` and the Phase 2
steps of `run_pipeline` read from the grant dictionaries. -/
structure GrantInfo where
  url : String
  button_text : String
  card_body_text : String
  links : List String

/-- One entry of the `deep_scrape_grants` result: the original grant
fields plus the added `deep_content` list. -/
structure DeepGrant where
  grant : GrantInfo
  deep_content : List CrawlNode

/-- The `for link_url in links` loop of `deep_scrape_grants` (lines
224-238 of `deep_scraper.py`): each card-body link that is http(s) is
crawled from depth 0 with the shared visited set and the grant's base
domain; non-http(s) links are skipped.  Returns the accumulated
`deep_content`, the visited set after the loop, and the ghost fetch
trace. -/
def deepScrapeLinks (web : Web) (links : List String) (max_depth : Nat)
    (visited : List String) (base_domain : String) :
    List CrawlNode × List String × List String :=
  match links with
  | [] => ([], visited, [])
  | link_url :: more =>
    if ¬ (pyStartsWith link_url "http://" || pyStartsWith link_url "https://") then
      deepScrapeLinks web more max_depth visited base_domain
    else
      let step := scrape_url_recursive web link_url 0 max_depth (some visited)
        (some base_domain)
      let rest := deepScrapeLinks web more max_depth step.visited base_domain
      (step.node :: rest.1, rest.2.1, step.trace ++ rest.2.2)

/-- `deep_scrape_grants(page, grant_details, max_depth)`: per grant, if
the card-body link list is empty the grant is returned with empty
`deep_content`; otherwise a fresh visited set is created, the base
domain is derived from the grant's URL, and every card-body link is
crawled via `deepScrapeLinks`.  The second component is the combined
ghost fetch trace of all grants. -/
def deep_scrape_grants (web : Web) (grant_details : List GrantInfo)
    (max_depth : Nat) : List DeepGrant × List String :=
  match grant_details with
  | [] => ([], [])
  | grant :: rest =>
    let entry : DeepGrant × List String :=
      if grant.links = [] then ({ grant := grant, deep_content := [] }, [])
      else
        let base_domain := schemeDomain grant.url
        let step := deepScrapeLinks web grant.links max_depth [] base_domain
        ({ grant := grant, deep_content := step.1 }, step.2.2)
    let others := deep_scrape_grants web rest max_depth
    (entry.1 :: others.1, entry.2 ++ others.2)

/-- The link collection of the Phase 2 analysis loop of `run_pipeline`
(lines 238-241 of `pipeline_service.py`): the grant's own links plus
the links of each top-level entry of `deep_content`. -/
def collect_links_for_analysis (dg : DeepGrant) : List String :=
  dg.grant.links ++ (dg.deep_content.map CrawlNode.links).flatten

mutual
/-- All outbound links reported anywhere in a crawl tree: the node's
own links plus, recursively, those of every nested node. -/
def allTreeLinks : CrawlNode → List String
  | .mk _ _ ls ns _ => ls ++ allTreeLinksList ns

/-- All outbound links reported anywhere in a list of crawl trees. -/
def allTreeLinksList : List CrawlNode → List String
  | [] => []
  | n :: ns => allTreeLinks n ++ allTreeLinksList ns
end

mutual
/-- For every node of a crawl tree rooted at depth `c`: the node's
depth and whether its `nested_content` is empty. -/
def nodeDepthsInfo : CrawlNode → Nat → List (Nat × Bool)
  | .mk _ _ _ ns _, c => (c, ns.isEmpty) :: nodeDepthsInfoList ns (c + 1)

/-- `nodeDepthsInfo` over a list of sibling subtrees at depth `c`. -/
def nodeDepthsInfoList : List CrawlNode → Nat → List (Nat × Bool)
  | [], _ => []
  | n :: ns, c => nodeDepthsInfo n c ++ nodeDepthsInfoList ns c
end

/-! ## The result store

`backend/app/models/models.py` (`Result`), `backend/app/access/results.py`
(`ResultAccess`), `backend/app/access/grants.py` (`GrantAccess.get_by_ids`),
`backend/app/models/gemini.py` (`GeminiGrantAnalysis`, `gemini_to_sqlalchemy`).

A database session is modelled as the list of `results` rows, in
insertion order (`db.add` appends).  `Result` has the composite primary
key `(grant_id, initiative_id)`; the key-uniqueness invariant the
database enforces appears as a `countP ... ≤ 1` hypothesis where a
theorem needs it.  Column types: integers stay `Int`; nullable columns
become `Option`; `deadline` timestamps and JSON values are opaque to
every claim, so the deadline is an `Option String` and the
`explanations` JSON object (whose two keys are `"match_rating"` and
`"uncertainty_rating"`) is an `Option (String × String)` holding the two
explanation texts.
-/

/-- A row of the `results` table. -/
structure ResultRec where
  grant_id : Int
  initiative_id : Int
  prelim_rating : Int
  grant_description : Option String
  criteria : Option (List String)
  grant_amount : Option String
  match_rating : Option Int
  uncertainty_rating : Option Int
  deadline : Option String
  sources : Option (List String)
  sponsor_name : Option String
  sponsor_description : Option String
  explanations : Option (String × String)

/-- The composite-primary-key test `Result.grant_id == grant_id and
Result.initiative_id == initiative_id` used by the `ResultAccess`
queries. -/
def resultKeyMatches (rec : ResultRec) (grant_id initiative_id : Int) : Bool :=
  rec.grant_id == grant_id && rec.initiative_id == initiative_id

/-- `ResultAccess.get_by_ids`: first row matching the composite key. -/
def ResultAccess.get_by_ids (store : List ResultRec)
    (grant_id initiative_id : Int) : Option ResultRec :=
  store.find? (fun rec => resultKeyMatches rec grant_id initiative_id)

/-- `ResultAccess.get_filtered_by_rating`: rows of the initiative with
`prelim_rating > min_rating`. -/
def ResultAccess.get_filtered_by_rating (store : List ResultRec)
    (initiative_id min_rating : Int) : List ResultRec :=
  store.filter (fun rec =>
    rec.initiative_id == initiative_id && decide (rec.prelim_rating > min_rating))

/-- SQLAlchemy's in-place mutation of a queried row: the first row
matching the composite key is replaced by `f` of itself, everything
else is untouched.  Used by the Phase 1 save (which sets
`prelim_rating` on the queried row) and by
`ResultAccess.create_or_update` (which copies fields onto the existing
row). -/
def updateFirstMatching (store : List ResultRec) (grant_id initiative_id : Int)
    (f : ResultRec → ResultRec) : List ResultRec :=
  match store with
  | [] => []
  | rec :: rest =>
    if resultKeyMatches rec grant_id initiative_id then f rec :: rest
    else rec :: updateFirstMatching rest grant_id initiative_id f

/-- The row `Result(grant_id=..., initiative_id=..., prelim_rating=...)`
created by the Phase 1 loop when no row exists yet: every other column
is NULL. -/
def mkPrelimResult (grant_id initiative_id prelim_rating : Int) : ResultRec :=
  { grant_id := grant_id, initiative_id := initiative_id,
    prelim_rating := prelim_rating, grant_description := none,
    criteria := none, grant_amount := none, match_rating := none,
    uncertainty_rating := none, deadline := none, sources := none,
    sponsor_name := none, sponsor_description := none, explanations := none }

/-- The per-grant save of the Phase 1 loop of `run_pipeline` (lines
131-142 of `pipeline_service.py`): query the row by composite key; if
it exists set its `prelim_rating` (then `ResultAccess.update` commits),
otherwise create a fresh row with only the key and `prelim_rating`
set. -/
def run_pipeline_phase1_save (store : List ResultRec)
    (grant_id initiative_id prelim_rating : Int) : List ResultRec :=
  match ResultAccess.get_by_ids store grant_id initiative_id with
  | some _ => updateFirstMatching store grant_id initiative_id
      (fun rec => { rec with prelim_rating := prelim_rating })
  | none => store ++ [mkPrelimResult grant_id initiative_id prelim_rating]

/-- The structured detailed analysis (`GeminiGrantAnalysis` in
`backend/app/models/gemini.py`) consumed by `gemini_to_sqlalchemy`. -/
structure GeminiGrantAnalysis where
  grant_description : String
  criteria : List String
  grant_amount : String
  match_rating : Int
  uncertainty_rating : Int
  deadline : Option String
  sources : List String
  match_rating_explanation : String
  uncertainty_rating_explanation : String

/-- `gemini_to_sqlalchemy(gemini_result, grant_id, initiative_id,
prelim_rating)`: builds a `Result` row from the detailed analysis.  The
sponsor columns are not among the constructor arguments, so they are
NULL on the built row (and, not being in the instance `__dict__`, are
not copied by `create_or_update`). -/
def gemini_to_sqlalchemy (gemini_result : GeminiGrantAnalysis)
    (grant_id initiative_id prelim_rating : Int) : ResultRec :=
  { grant_id := grant_id, initiative_id := initiative_id,
    prelim_rating := prelim_rating,
    grant_description := some gemini_result.grant_description,
    criteria := some gemini_result.criteria,
    grant_amount := some gemini_result.grant_amount,
    match_rating := some gemini_result.match_rating,
    uncertainty_rating := some gemini_result.uncertainty_rating,
    deadline := gemini_result.deadline,
    sources := some gemini_result.sources,
    sponsor_name := none, sponsor_description := none,
    explanations := some (gemini_result.match_rating_explanation,
      gemini_result.uncertainty_rating_explanation) }

/-- The `setattr` loop of `ResultAccess.create_or_update`, applied to a
row built by `gemini_to_sqlalchemy`: every attribute in the source
row's `__dict__` except `grant_id` and `initiative_id` is copied onto
the existing row.  For a row built by `gemini_to_sqlalchemy` the
attributes present in `__dict__` are exactly the constructor arguments,
which excludes the sponsor columns. -/
def copyDetailedFields (src dst : ResultRec) : ResultRec :=
  { dst with
    prelim_rating := src.prelim_rating,
    grant_description := src.grant_description,
    criteria := src.criteria,
    grant_amount := src.grant_amount,
    match_rating := src.match_rating,
    uncertainty_rating := src.uncertainty_rating,
    deadline := src.deadline,
    sources := src.sources,
    explanations := src.explanations }

/-- `ResultAccess.create_or_update` as invoked by the Phase 2 loop of
`run_pipeline` (its only caller) on a row built by
`gemini_to_sqlalchemy`: if a row with the same composite key exists,
copy the new row's fields onto it, otherwise insert the new row. -/
def ResultAccess.create_or_update (store : List ResultRec)
    (result : ResultRec) : List ResultRec :=
  match ResultAccess.get_by_ids store result.grant_id result.initiative_id with
  | some _ => updateFirstMatching store result.grant_id result.initiative_id
      (copyDetailedFields result)
  | none => store ++ [result]

/-- The per-grant save of the Phase 2 analysis loop of `run_pipeline`
(lines 263-285 of `pipeline_service.py`): read the preliminary rating
written by Phase 1 (50 if the row is somehow absent), convert the
detailed analysis with `gemini_to_sqlalchemy`, and upsert via
`ResultAccess.create_or_update`. -/
def run_pipeline_phase2_save (store : List ResultRec)
    (grant_id initiative_id : Int) (gemini_result : GeminiGrantAnalysis) :
    List ResultRec :=
  let prelim_rating :=
    match ResultAccess.get_by_ids store grant_id initiative_id with
    | some result => result.prelim_rating
    | none => 50
  ResultAccess.create_or_update store
    (gemini_to_sqlalchemy gemini_result grant_id initiative_id prelim_rating)

/-! ## Grant selection for Phase 2 -/

/-- A row of the `grants` table (the columns the pipeline selection
reads). -/
structure GrantRec where
  id : Int
  name : String
  url : String
  links : List String

/-- `GrantAccess.get_by_ids`: grants whose `id` is in the given list
(`Grant.id.in_(grant_ids)`). -/
def GrantAccess.get_by_ids (grants : List GrantRec) (grant_ids : List Int) :
    List GrantRec :=
  grants.filter (fun grant => grant_ids.contains grant.id)

/-- The Phase 1 → Phase 2 filtering step of `run_pipeline` (lines
156-163 of `pipeline_service.py`): the results above the threshold are
fetched, their grant ids extracted, and the corresponding grants
loaded; those grants are the subjects processed by Phase 2. -/
def run_pipeline_filtered_grants (grants : List GrantRec)
    (results : List ResultRec) (initiative_id threshold : Int) : List GrantRec :=
  GrantAccess.get_by_ids grants
    ((ResultAccess.get_filtered_by_rating results initiative_id threshold).map
      (fun rec => rec.grant_id))

/-! ## The pipeline status table

`backend/app/services/pipeline_status.py`.  The module-level dictionary
`_pipeline_status` becomes a function from initiative ids to optional
snapshots; dictionary assignment becomes pointwise update.
-/

/-- The `PipelinePhase` enumeration and its `.value` strings. -/
inductive PipelinePhase where
  | idle
  | phase_1_calculating
  | phase_2_deep_scraping
  | phase_2_analyzing
  | completed
  | error

/-- The `.value` string of a `PipelinePhase` member. -/
def PipelinePhase.value : PipelinePhase → String
  | .idle => "idle"
  | .phase_1_calculating => "calculating"
  | .phase_2_deep_scraping => "deep_scraping"
  | .phase_2_analyzing => "analyzing"
  | .completed => "completed"
  | .error => "error"

/-- One status snapshot: the dictionary built by `update_status`. -/
structure StatusRec where
  phase : String
  remaining_calls : Option Int
  total_grants : Option Int
  current_grant : Option Int
  error : Option String

/-- The module-level `_pipeline_status` dictionary. -/
def StatusTable : Type := Int → Option StatusRec

/-- `set_status(initiative_id, status)`: dictionary assignment. -/
def set_status (table : StatusTable) (initiative_id : Int)
    (status : StatusRec) : StatusTable :=
  fun k => if k = initiative_id then some status else table k

/-- `get_status(initiative_id)`: dictionary lookup. -/
def get_status (table : StatusTable) (initiative_id : Int) : Option StatusRec :=
  table initiative_id

/-- `update_status(initiative_id, phase, remaining_calls=None,
total_grants=None, current_grant=None, error=None)`: builds a complete
fresh snapshot from its arguments (each keyword argument defaulting to
`None`) and stores it with `set_status`, replacing whatever snapshot
was there. -/
def update_status (table : StatusTable) (initiative_id : Int)
    (phase : PipelinePhase) (remaining_calls total_grants current_grant : Option Int)
    (error : Option String) : StatusTable :=
  set_status table initiative_id
    { phase := phase.value, remaining_calls := remaining_calls,
      total_grants := total_grants, current_grant := current_grant,
      error := error }

/-! ## The retrying preliminary-scoring wrapper

`backend/app/services/gemini_service.py`.  One attempt of the `try`
body (the `generate_content` call followed by schema validation of the
response) either produces a rating or raises; we model the sequence of
attempt outcomes as `attemptOutcome : Nat → Option Int` (indexed by the
1-based attempt number, `none` for an exception).  The `time.sleep`
calls do not affect the returned value and are dropped.
-/

/-- `MAX_RETRIES` from `gemini_service.py`. -/
def MAX_RETRIES : Nat := 7

/-- The `for attempt in range(1, MAX_RETRIES + 1)` retry loop of
`analyze_grant_preliminary`, with `left` the number of loop iterations
still available (so `left = 0` is the fall-through after the loop,
returning the defensive trailing 50, and the Python continuation test
`attempt < MAX_RETRIES` is `left - 1 ≠ 0`).  A successful attempt
returns its rating; a failed final attempt returns the default rating
50. -/
def prelimRetryLoop (attemptOutcome : Nat → Option Int) :
    Nat → Nat → Int
  | 0, _ => 50
  | left + 1, attempt =>
    match attemptOutcome attempt with
    | some rating => rating
    | none =>
      if left = 0 then 50
      else prelimRetryLoop attemptOutcome left (attempt + 1)

/-- `analyze_grant_preliminary`, abstracted over the attempt outcomes
and the configured retry budget: run the retry loop from attempt 1. -/
def analyze_grant_preliminary (attemptOutcome : Nat → Option Int)
    (max_retries : Nat) : Int :=
  prelimRetryLoop attemptOutcome max_retries 1

/-- Modelled from the spec: the class `GeminiPreliminaryAnalysis`, whose
`model_validate_json` validates the Phase 1 response inside the `try`
body of `analyze_grant_preliminary`, is referenced from
`gemini_service.py` but its definition is not under `src/`
(`app/models/gemini.py` defines only `GeminiGrantAnalysis`).  Per §4.4
of the spec, Phase 1 validation clamps a numeric out-of-range rating
into [0,100] and rejects a malformed (non-numeric) response, the
rejection feeding the same retry-then-degrade path as a call failure.
A raw response is `some n` when its rating field is the number `n` and
`none` when it is non-numeric. -/
def model_validate_preliminary (raw : Option Int) : Option Int :=
  match raw with
  | none => none
  | some n => some (max 0 (min 100 n))

/-! ## Theorems -/

/-- Helper for the retry loop: if every attempt in the window fails,
the loop returns the default rating 50. -/
lemma prelimRetryLoop_all_fail (attemptOutcome : Nat → Option Int) :
    ∀ (left attempt : Nat),
    (∀ a, attempt ≤ a → a < attempt + left → attemptOutcome a = none) →
    prelimRetryLoop attemptOutcome left attempt = 50 := by
  intro left
  induction left with
  | zero => intro attempt _; rfl
  | succ n ih =>
    intro attempt h
    have hfa : attemptOutcome attempt = none := h attempt le_rfl (by omega)
    simp only [prelimRetryLoop, hfa]
    by_cases hn : n = 0
    · simp [hn]
    · simp only [hn, if_false]
      exact ih (attempt + 1) (fun a ha hb => h a (by omega) (by omega))

/-- C5: if every one of the configured maximum number of retry attempts
of the preliminary scoring call fails, `analyze_grant_preliminary`
returns exactly the sentinel 50.  The embedding is a total function
into `Int`, so no exception propagates past this layer and the Phase 1
loop of `run_pipeline` proceeds to the next grant. -/
theorem analyze_grant_preliminary_all_fail_sentinel :
    ∀ (attemptOutcome : Nat → Option Int) (max_retries : Nat),
    (∀ a, 1 ≤ a → a ≤ max_retries → attemptOutcome a = none) →
    analyze_grant_preliminary attemptOutcome max_retries = 50 := by
  intro f mr h
  exact prelimRetryLoop_all_fail f mr 1 (fun a ha hb => h a ha (by omega))

/-- Witness for `analyze_grant_preliminary_all_fail_sentinel` at the
configured `MAX_RETRIES = 7` and the all-failing outcome sequence. -/
theorem analyze_grant_preliminary_all_fail_sentinel_witness :
    analyze_grant_preliminary (fun _ => none) MAX_RETRIES = 50 :=
  analyze_grant_preliminary_all_fail_sentinel (fun _ => none) MAX_RETRIES
    (fun _ _ _ => rfl)

/-- C6: under the spec-modelled validation
(`model_validate_preliminary`), a numeric but out-of-range Phase 1
rating is clamped into [0,100] (already at the first attempt), and a
malformed (non-numeric) response falls back to the degraded sentinel 50
after the retries; the embedding is total, so neither case lets an
exception propagate past this layer. -/
theorem analyze_grant_preliminary_clamp_or_degrade :
    ∀ (n : Int) (max_retries : Nat), 1 ≤ max_retries →
    (analyze_grant_preliminary
        (fun _ => model_validate_preliminary (some n)) max_retries
        = max 0 (min 100 n)
      ∧ 0 ≤ max 0 (min 100 n) ∧ max 0 (min 100 n) ≤ 100)
    ∧ analyze_grant_preliminary
        (fun _ => model_validate_preliminary none) max_retries = 50 := by
  intro n mr hmr
  refine ⟨⟨?_, ?_, ?_⟩, ?_⟩
  · obtain ⟨m, rfl⟩ : ∃ m, mr = m + 1 := ⟨mr - 1, by omega⟩
    simp [analyze_grant_preliminary, prelimRetryLoop, model_validate_preliminary]
  · omega
  · omega
  · exact prelimRetryLoop_all_fail _ mr 1 (fun _ _ _ => rfl)

/-- Witness for `analyze_grant_preliminary_clamp_or_degrade` at the
out-of-range rating 150 and the configured retry budget 7. -/
theorem analyze_grant_preliminary_clamp_or_degrade_witness :
    (analyze_grant_preliminary
        (fun _ => model_validate_preliminary (some 150)) 7
        = max 0 (min 100 (150 : Int))
      ∧ (0 : Int) ≤ max 0 (min 100 150) ∧ max 0 (min 100 (150 : Int)) ≤ 100)
    ∧ analyze_grant_preliminary
        (fun _ => model_validate_preliminary none) 7 = 50 :=
  analyze_grant_preliminary_clamp_or_degrade 150 7 (by decide)

/-- C10: `update_status` replaces the whole stored snapshot for the
initiative: the snapshot read back afterwards is built from exactly the
call's arguments, independently of the previous table contents.  Since
every argument a caller omits is `None` in Python, a field not supplied
is `none` in the new snapshot — in particular an error message from an
earlier update is erased by any later update that omits `error`. -/
theorem update_status_replaces_whole_snapshot :
    ∀ (table : StatusTable) (initiative_id : Int) (phase : PipelinePhase)
      (remaining_calls total_grants current_grant : Option Int)
      (error : Option String),
    get_status (update_status table initiative_id phase remaining_calls
        total_grants current_grant error) initiative_id
      = some { phase := phase.value, remaining_calls := remaining_calls,
               total_grants := total_grants, current_grant := current_grant,
               error := error } := by
  intro table iid p rc tg cg err
  simp [get_status, update_status, set_status]

/-- C1: a grant is selected for Phase 2 exactly when some result row
links it to the initiative with `prelim_rating` strictly greater than
the threshold.  Instantiating `rec.prelim_rating = threshold` makes the
right-hand side false (boundary excluded) and `rec.prelim_rating =
threshold + 1` satisfies the inequality (boundary included). -/
theorem phase2_selection_iff_strictly_above_threshold :
    ∀ (grants : List GrantRec) (results : List ResultRec)
      (initiative_id threshold : Int) (g : GrantRec),
    g ∈ run_pipeline_filtered_grants grants results initiative_id threshold ↔
      g ∈ grants ∧ ∃ rec ∈ results, rec.grant_id = g.id ∧
        rec.initiative_id = initiative_id ∧ threshold < rec.prelim_rating := by
  intro grants results iid T g
  simp only [run_pipeline_filtered_grants, GrantAccess.get_by_ids,
    ResultAccess.get_filtered_by_rating, List.mem_filter, List.contains,
    List.elem_eq_mem, List.mem_map, decide_eq_true_eq, Bool.and_eq_true,
    beq_iff_eq, gt_iff_lt]
  constructor
  · rintro ⟨hg, rec, ⟨hrec, hiid, hT⟩, hid⟩
    exact ⟨hg, rec, hrec, hid, hiid, hT⟩
  · rintro ⟨hg, rec, hrec, hid, hiid, hT⟩
    exact ⟨hg, rec, ⟨hrec, hiid, hT⟩, hid⟩

/-- Helper: a property of child crawl results, established for every
link that passes the domain filter, holds for all nodes and all trace
entries produced by the link-following loop. -/
lemma followLinks_all (child : String → List String → CrawlStep)
    (base_domain : String) (pn : CrawlNode → Prop) (pt : String → Prop)
    (h : ∀ l v, ¬(base_domain ≠ "" ∧ schemeDomain l ≠ base_domain) →
      pn (child l v).node ∧ ∀ u ∈ (child l v).trace, pt u) :
    ∀ (links visited : List String),
      (∀ n ∈ (followLinks child links base_domain visited).nodes, pn n) ∧
      (∀ u ∈ (followLinks child links base_domain visited).trace, pt u) := by
  intro links
  induction links with
  | nil => intro v; simp [followLinks]
  | cons l more ih =>
    intro v
    by_cases hc : base_domain ≠ "" ∧ schemeDomain l ≠ base_domain
    · simp only [followLinks, if_pos hc]
      exact ih v
    · by_cases hh : ¬(pyStartsWith l "http://" || pyStartsWith l "https://")
      · simp only [followLinks, if_neg hc, if_pos hh]
        exact ih v
      · simp only [followLinks, if_neg hc, if_neg hh]
        obtain ⟨hn, ht⟩ := h l v hc
        obtain ⟨hrn, hrt⟩ := ih (child l v).visited
        refine ⟨?_, ?_⟩
        · intro n hn'
          rcases List.mem_cons.mp hn' with rfl | hn'
          · exact hn
          · exact hrn n hn'
        · intro u hu
          rcases List.mem_append.mp hu with hu | hu
          · exact ht u hu
          · exact hrt u hu

/-- Helper: the link-following loop only grows the visited set by the
URLs it fetches (in reverse fetch order), and preserves freedom from
duplicates, provided each child call does so. -/
lemma followLinks_inv (child : String → List String → CrawlStep)
    (base_domain : String)
    (hchild : ∀ l v, (child l v).visited = (child l v).trace.reverse ++ v ∧
      (v.Nodup → ((child l v).trace.reverse ++ v).Nodup)) :
    ∀ (links visited : List String),
      (followLinks child links base_domain visited).visited
        = (followLinks child links base_domain visited).trace.reverse ++ visited ∧
      (visited.Nodup →
        ((followLinks child links base_domain visited).trace.reverse
          ++ visited).Nodup) := by
  intro links
  induction links with
  | nil => intro v; simp [followLinks]
  | cons l more ih =>
    intro v
    by_cases hc : base_domain ≠ "" ∧ schemeDomain l ≠ base_domain
    · simp only [followLinks, if_pos hc]
      exact ih v
    · by_cases hh : ¬(pyStartsWith l "http://" || pyStartsWith l "https://")
      · simp only [followLinks, if_neg hc, if_pos hh]
        exact ih v
      · simp only [followLinks, if_neg hc, if_neg hh]
        obtain ⟨hcv, hcn⟩ := hchild l v
        obtain ⟨hrv, hrn⟩ := ih (child l v).visited
        refine ⟨?_, ?_⟩
        · rw [hrv, hcv]
          simp [List.reverse_append, List.append_assoc]
        · intro hv
          have h1 : (child l v).visited.Nodup := by rw [hcv]; exact hcn hv
          have h2 := hrn h1
          simp only [List.reverse_append, List.append_assoc]
          rw [← hcv]
          exact h2

/-- Helper: the definitional unfolding of `scrapeCore` at depth budget
zero. -/
lemma scrapeCore_eq_zero (web : Web) (url : String) (visited : List String)
    (base_domain : String) :
    scrapeCore web url 0 visited base_domain =
      if url ∈ visited then
        ⟨.mk url none [] [] (some "Already visited (cycle prevention)"),
          visited, []⟩
      else
        ⟨.mk url (web url).content (web url).links [] (web url).error,
          url :: visited, [url]⟩ := rfl

/-- Helper: the definitional unfolding of `scrapeCore` at a positive
depth budget. -/
lemma scrapeCore_eq_succ (web : Web) (url : String) (r : Nat)
    (visited : List String) (base_domain : String) :
    scrapeCore web url (r + 1) visited base_domain =
      if url ∈ visited then
        ⟨.mk url none [] [] (some "Already visited (cycle prevention)"),
          visited, []⟩
      else
        let rest := followLinks (fun l v => scrapeCore web l r v base_domain)
          (web url).links base_domain (url :: visited)
        ⟨.mk url (web url).content (web url).links rest.nodes (web url).error,
          rest.visited, url :: rest.trace⟩ := rfl

/-- Helper: a crawl only grows the visited set by the URLs it fetches
(in reverse fetch order), and preserves freedom from duplicates. -/
lemma scrapeCore_inv (web : Web) (base_domain : String) :
    ∀ (remaining : Nat) (url : String) (visited : List String),
      (scrapeCore web url remaining visited base_domain).visited
        = (scrapeCore web url remaining visited base_domain).trace.reverse
          ++ visited ∧
      (visited.Nodup →
        ((scrapeCore web url remaining visited base_domain).trace.reverse
          ++ visited).Nodup) := by
  intro rem
  induction rem with
  | zero =>
    intro url v
    by_cases h : url ∈ v
    · simp [scrapeCore_eq_zero, h]
    · simp [scrapeCore_eq_zero, h, List.nodup_cons]
  | succ r ih =>
    intro url v
    by_cases h : url ∈ v
    · simp [scrapeCore_eq_succ, h]
    · have hf := followLinks_inv (fun l v' => scrapeCore web l r v' base_domain)
        base_domain (fun l v' => ih l v') (web url).links (url :: v)
      simp only [scrapeCore_eq_succ, if_neg h]
      refine ⟨?_, ?_⟩
      · rw [hf.1]
        simp [List.append_assoc]
      · intro hv
        have h1 : (url :: v).Nodup := List.nodup_cons.mpr ⟨h, hv⟩
        have h2 := hf.2 h1
        simpa [List.append_assoc] using h2

/-- C3: the crawl's cycle guard.  On a URL already in the visited set,
`scrapeCore` returns the terminal "Already visited (cycle prevention)"
node without fetching (its fetch trace is empty and the visited set is
unchanged); and starting from a duplicate-free visited set, the list of
fetched URLs of a whole crawl is duplicate-free — each URL is fetched
at most once — and never revisits a URL fetched before the call.
Termination on every link graph, cyclic ones included, is expressed by
`scrapeCore` being a total function: its recursion is bounded by the
depth budget, exactly as in the source. -/
theorem crawl_cycle_guard_fetch_at_most_once :
    ∀ (web : Web) (url : String) (remaining : Nat) (visited : List String)
      (base_domain : String),
    (url ∈ visited → scrapeCore web url remaining visited base_domain =
      ⟨.mk url none [] [] (some "Already visited (cycle prevention)"),
        visited, []⟩) ∧
    (visited.Nodup →
      (scrapeCore web url remaining visited base_domain).trace.Nodup ∧
      ∀ u ∈ visited, u ∉ (scrapeCore web url remaining visited base_domain).trace) := by
  intro web url rem v bd
  refine ⟨?_, ?_⟩
  · intro h
    cases rem
    · simp [scrapeCore_eq_zero, h]
    · simp [scrapeCore_eq_succ, h]
  · intro hv
    have h2 := (scrapeCore_inv web bd rem url v).2 hv
    rw [List.nodup_append] at h2
    refine ⟨List.nodup_reverse.mp h2.1, ?_⟩
    intro u hu htrace
    exact h2.2.2 (List.mem_reverse.mpr htrace) hu

/-- A two-page web with the cycle A→B→A, used as concrete input. -/
def webCycle : Web := fun u =>
  if u = "http://a.com/A" then ⟨some "A", ["http://a.com/B"], none⟩
  else if u = "http://a.com/B" then ⟨some "B", ["http://a.com/A"], none⟩
  else ⟨none, [], none⟩

/-- Witness for `crawl_cycle_guard_fetch_at_most_once` on the cyclic
link graph A→B→A: the guard returns the terminal node on a visited URL,
and the crawl from an empty visited set fetches each URL at most
once. -/
theorem crawl_cycle_guard_fetch_at_most_once_witness :
    (scrapeCore webCycle "http://a.com/A" 4 ["http://a.com/A"] "http://a.com" =
      ⟨.mk "http://a.com/A" none [] [] (some "Already visited (cycle prevention)"),
        ["http://a.com/A"], []⟩) ∧
    ((scrapeCore webCycle "http://a.com/A" 4 [] "http://a.com").trace.Nodup ∧
      ∀ u ∈ ([] : List String),
        u ∉ (scrapeCore webCycle "http://a.com/A" 4 [] "http://a.com").trace) :=
  ⟨(crawl_cycle_guard_fetch_at_most_once webCycle "http://a.com/A" 4
      ["http://a.com/A"] "http://a.com").1 (by decide),
    (crawl_cycle_guard_fetch_at_most_once webCycle "http://a.com/A" 4
      [] "http://a.com").2 List.nodup_nil⟩

/-- Helper: membership in `nodeDepthsInfoList` is membership in the
info of one of the subtrees. -/
lemma nodeDepthsInfoList_mem :
    ∀ (ns : List CrawlNode) (c : Nat) (q : Nat × Bool),
      q ∈ nodeDepthsInfoList ns c ↔ ∃ n ∈ ns, q ∈ nodeDepthsInfo n c := by
  intro ns
  induction ns with
  | nil => intro c q; simp [nodeDepthsInfoList]
  | cons n ns ih => intro c q; simp [nodeDepthsInfoList, List.mem_append, ih]

/-- Helper: in the tree produced by a crawl with depth budget
`remaining`, rooted at depth `c`, every node sits at depth at most
`c + remaining`, and a node at depth exactly `c + remaining` has empty
`nested_content`. -/
lemma scrapeCore_depth (web : Web) (base_domain : String) :
    ∀ (remaining : Nat) (url : String) (visited : List String) (c : Nat),
      ∀ q ∈ nodeDepthsInfo (scrapeCore web url remaining visited base_domain).node c,
        q.1 ≤ c + remaining ∧ (q.1 = c + remaining → q.2 = true) := by
  intro rem
  induction rem with
  | zero =>
    intro url v c q hq
    by_cases h : url ∈ v <;>
      simp [scrapeCore_eq_zero, h, nodeDepthsInfo, nodeDepthsInfoList] at hq <;>
      simp [hq]
  | succ r ih =>
    intro url v c q hq
    by_cases h : url ∈ v
    · simp [scrapeCore_eq_succ, h, nodeDepthsInfo, nodeDepthsInfoList] at hq
      subst hq
      refine ⟨by omega, fun hc => rfl⟩
    · simp only [scrapeCore_eq_succ, if_neg h] at hq
      have hall := followLinks_all (fun l v' => scrapeCore web l r v' base_domain)
        base_domain
        (fun n => ∀ q ∈ nodeDepthsInfo n (c + 1),
          q.1 ≤ (c + 1) + r ∧ (q.1 = (c + 1) + r → q.2 = true))
        (fun _ => True)
        (fun l v' _ => ⟨fun q hq => ih l v' (c + 1) q hq, fun _ _ => trivial⟩)
        (web url).links (url :: v)
      simp only [nodeDepthsInfo] at hq
      rcases List.mem_cons.mp hq with rfl | hq
      · exact ⟨by omega, fun hc => by omega⟩
      · obtain ⟨n, hn, hqn⟩ := (nodeDepthsInfoList_mem _ _ _).mp hq
        have := hall.1 n hn q hqn
        exact ⟨by omega, fun hc => this.2 (by omega)⟩

/-- C2: in the tree returned by a seed crawl
(`scrape_url_recursive` at `current_depth = 0`) with bound
`max_depth = d`, no node has depth greater than `d`, and every node at
depth exactly `d` has empty `nested_content`, regardless of how many
outbound links its page reports (`web` is universally quantified). -/
theorem crawl_depth_bound :
    ∀ (web : Web) (url : String) (max_depth : Nat)
      (visited_urls : Option (List String)) (base_domain : Option String),
    ∀ q ∈ nodeDepthsInfo
        (scrape_url_recursive web url 0 max_depth visited_urls base_domain).node 0,
      q.1 ≤ max_depth ∧ (q.1 = max_depth → q.2 = true) := by
  intro web url d v bd q hq
  simp only [scrape_url_recursive, Nat.sub_zero] at hq
  have := scrapeCore_depth web (bd.getD (schemeDomain url)) d url (v.getD []) 0 q hq
  simpa using this

/-- Witness for `crawl_depth_bound` on the cyclic graph A→B→A with
`max_depth = 1`: the node B sits at depth exactly 1 and has no
children, even though its page reports a link back to A. -/
theorem crawl_depth_bound_witness :
    ((1, true) ∈ nodeDepthsInfo
      (scrape_url_recursive webCycle "http://a.com/A" 0 1 none none).node 0) ∧
    ((1, true).1 ≤ 1 ∧ ((1, true).1 = 1 → (1, true).2 = true)) :=
  ⟨by decide,
    crawl_depth_bound webCycle "http://a.com/A" 1 none none (1, true) (by decide)⟩

/-- Helper: the scheme+netloc projection of any string contains `://`,
so it is never the empty string; hence the Python truthiness gate
`if base_domain:` is always open when the base domain comes from
`schemeDomain`. -/
lemma schemeDomain_ne_empty (u : String) : schemeDomain u ≠ "" := by
  unfold schemeDomain
  cases h : findSchemeSplit u.data with
  | none => decide
  | some p =>
    intro hcontra
    have hlen := congrArg String.length hcontra
    have h3 : ("://" : String).length = 3 := rfl
    simp [String.length_append, h3] at hlen

/-- Helper: every URL in the fetch trace of a crawl is either the
crawl's own root URL or has scheme+netloc equal to the base domain,
provided the base domain is non-empty (so the domain filter is
active). -/
lemma scrapeCore_trace_domain (web : Web) (base_domain : String)
    (hbd : base_domain ≠ "") :
    ∀ (remaining : Nat) (url : String) (visited : List String),
      ∀ u ∈ (scrapeCore web url remaining visited base_domain).trace,
        u = url ∨ schemeDomain u = base_domain := by
  intro rem
  induction rem with
  | zero =>
    intro url v u hu
    by_cases h : url ∈ v <;> simp [scrapeCore_eq_zero, h] at hu
    exact Or.inl hu
  | succ r ih =>
    intro url v u hu
    by_cases h : url ∈ v
    · simp [scrapeCore_eq_succ, h] at hu
    · simp only [scrapeCore_eq_succ, if_neg h] at hu
      have hall := followLinks_all (fun l v' => scrapeCore web l r v' base_domain)
        base_domain (fun _ => True)
        (fun u => schemeDomain u = base_domain)
        (fun l v' hl => by
          refine ⟨trivial, fun u hu => ?_⟩
          have hldom : schemeDomain l = base_domain := by
            by_contra hne
            exact hl ⟨hbd, hne⟩
          rcases ih l v' u hu with rfl | hdom
          · exact hldom
          · exact hdom)
        (web url).links (url :: v)
      rcases List.mem_cons.mp hu with rfl | hu
      · exact Or.inl rfl
      · exact Or.inr (hall.2 u hu)

/-- C4, amended: within one recursive crawl, the domain filter really is
exact scheme+host string equality — every URL fetched below the root
has scheme+netloc equal to the base domain, and when the base domain is
derived from the seed itself (`scrape_url_recursive` with
`base_domain=None`) every fetched URL, the seed included, has the
seed's scheme+host.  The original claim fails only for the root nodes
started by `deep_scrape_grants`, which fetches each card-body link
without comparing its host to the grant URL's host (see the
counterexample). -/
theorem crawl_domain_scoping_amended :
    (∀ (web : Web) (url : String) (remaining : Nat) (visited : List String)
        (base_domain : String), base_domain ≠ "" →
      ∀ u ∈ (scrapeCore web url remaining visited base_domain).trace,
        u = url ∨ schemeDomain u = base_domain) ∧
    (∀ (web : Web) (url : String) (current_depth max_depth : Nat)
        (visited_urls : Option (List String)),
      ∀ u ∈ (scrape_url_recursive web url current_depth max_depth
          visited_urls none).trace,
        schemeDomain u = schemeDomain url) := by
  refine ⟨?_, ?_⟩
  · intro web url rem v bd hbd u hu
    exact scrapeCore_trace_domain web bd hbd rem url v u hu
  · intro web url c d v u hu
    simp only [scrape_url_recursive, Option.getD_none] at hu
    rcases scrapeCore_trace_domain web (schemeDomain url)
      (schemeDomain_ne_empty url) (d - c) url (v.getD []) u hu with rfl | hdom
    · rfl
    · exact hdom

/-- Witness for `crawl_domain_scoping_amended` on the cyclic A→B→A
graph: every fetched URL of the seed crawl from A has A's
scheme+host. -/
theorem crawl_domain_scoping_amended_witness :
    ("http://a.com" ≠ "" ∧
      ∀ u ∈ (scrapeCore webCycle "http://a.com/A" 4 [] "http://a.com").trace,
        u = "http://a.com/A" ∨ schemeDomain u = "http://a.com") ∧
    ∀ u ∈ (scrape_url_recursive webCycle "http://a.com/A" 0 4 none none).trace,
      schemeDomain u = schemeDomain "http://a.com/A" :=
  ⟨⟨by decide,
      crawl_domain_scoping_amended.1 webCycle "http://a.com/A" 4 [] "http://a.com"
        (by decide)⟩,
    crawl_domain_scoping_amended.2 webCycle "http://a.com/A" 0 4 none⟩

/-- A web where every page has content and no outbound links. -/
def webFlat : Web := fun _ => ⟨some "page content", [], none⟩

/-- A grant whose card-body links point at a host different from the
grant URL's host. -/
def grantOffDomain : GrantInfo :=
  ⟨"http://a.com/g", "Apply", "body text", ["http://evil.com/page"]⟩

/-- Counterexample to C4 as stated: `deep_scrape_grants` fetches the
card-body link `http://evil.com/page` (it is in the fetch trace) even
though its scheme+host differs from the grant URL's scheme+host —
the domain filter is applied only to links discovered during recursion,
never to the card-body links themselves. -/
theorem deep_scrape_fetches_foreign_host :
    "http://evil.com/page" ∈ (deep_scrape_grants webFlat [grantOffDomain] 2).2 ∧
    schemeDomain "http://evil.com/page" ≠ schemeDomain "http://a.com/g" := by
  decide

/-- Helper: a node's own links are among all links of its tree. -/
lemma links_mem_allTreeLinks (n : CrawlNode) :
    ∀ u ∈ n.links, u ∈ allTreeLinks n := by
  cases n with
  | mk url content ls ns err =>
    intro u hu
    simp only [allTreeLinks, CrawlNode.links] at *
    exact List.mem_append.mpr (Or.inl hu)

/-- Helper: all links of a member tree are among all links of the
forest. -/
lemma allTreeLinks_mem_list :
    ∀ (ns : List CrawlNode) (n : CrawlNode), n ∈ ns →
      ∀ u ∈ allTreeLinks n, u ∈ allTreeLinksList ns := by
  intro ns
  induction ns with
  | nil => intro n hn; simp at hn
  | cons m ms ih =>
    intro n hn u hu
    rcases List.mem_cons.mp hn with rfl | hn
    · exact List.mem_append.mpr (Or.inl hu)
    · exact List.mem_append.mpr (Or.inr (ih n hn u hu))

/-- C7, amended: the links handed to the document collector for a
subject are the subject's own links plus the links reported by the
top-level entries of its `deep_content` only; they form a subset of the
union of the links discovered at every node of the crawl trees, and in
general a proper subset — links reported by nested nodes at depth ≥ 1
are omitted (see the counterexample). -/
theorem collect_links_subset_of_tree_links :
    ∀ (dg : DeepGrant), ∀ u ∈ collect_links_for_analysis dg,
      u ∈ dg.grant.links ++ allTreeLinksList dg.deep_content := by
  intro dg u hu
  simp only [collect_links_for_analysis] at hu
  rcases List.mem_append.mp hu with hu | hu
  · exact List.mem_append.mpr (Or.inl hu)
  · refine List.mem_append.mpr (Or.inr ?_)
    obtain ⟨ls, hls, hu⟩ := List.mem_flatten.mp hu
    obtain ⟨n, hn, rfl⟩ := List.mem_map.mp hls
    exact allTreeLinks_mem_list dg.deep_content n hn u
      (links_mem_allTreeLinks n u hu)

/-- A web where page p1 links to p2 and p2 links to a document URL, all
on the same host. -/
def webDeepLinks : Web := fun u =>
  if u = "http://a.com/p1" then ⟨some "p1", ["http://a.com/p2"], none⟩
  else if u = "http://a.com/p2" then ⟨some "p2", ["http://a.com/doc"], none⟩
  else ⟨some "", [], none⟩

/-- A grant whose single card-body link starts the p1→p2→doc chain. -/
def grantDeep : GrantInfo :=
  ⟨"http://a.com/g", "Apply", "body", ["http://a.com/p1"]⟩

/-- The deep-scrape result for `grantDeep` on `webDeepLinks` at the
pipeline's `max_depth = 2`. -/
def deepScrapedSample : DeepGrant :=
  (deep_scrape_grants webDeepLinks [grantDeep] 2).1.getD 0 ⟨grantDeep, []⟩

/-- Witness for `collect_links_subset_of_tree_links`: the collected
link `http://a.com/p2` is indeed among the links of the whole crawl
tree. -/
theorem collect_links_subset_of_tree_links_witness :
    "http://a.com/p2" ∈ collect_links_for_analysis deepScrapedSample ∧
    "http://a.com/p2" ∈ deepScrapedSample.grant.links
      ++ allTreeLinksList deepScrapedSample.deep_content :=
  ⟨by decide,
    collect_links_subset_of_tree_links deepScrapedSample "http://a.com/p2"
      (by decide)⟩

/-- Counterexample to C7 as stated: on `webDeepLinks`, the link
`http://a.com/doc` is discovered at the depth-1 node p2 of the crawl
tree (so it belongs to the union over the whole tree), but the Phase 2
analysis loop hands the collector only the grant's own links plus the
links of the top-level node p1, which misses it. -/
theorem collect_links_misses_nested_links :
    "http://a.com/doc" ∈ deepScrapedSample.grant.links
      ++ allTreeLinksList deepScrapedSample.deep_content ∧
    "http://a.com/doc" ∉ collect_links_for_analysis deepScrapedSample := by
  decide

/-- Helper: replacing the first key-matching row by a key-preserving
function leaves the number of key-matching rows unchanged. -/
lemma updateFirstMatching_countP (grant_id initiative_id : Int)
    (f : ResultRec → ResultRec)
    (hf : ∀ rec, resultKeyMatches (f rec) grant_id initiative_id
      = resultKeyMatches rec grant_id initiative_id) :
    ∀ store : List ResultRec,
      (updateFirstMatching store grant_id initiative_id f).countP
          (fun rec => resultKeyMatches rec grant_id initiative_id)
        = store.countP (fun rec => resultKeyMatches rec grant_id initiative_id) := by
  intro store
  induction store with
  | nil => rfl
  | cons rec rest ih =>
    by_cases h : resultKeyMatches rec grant_id initiative_id = true
    · simp [updateFirstMatching, h, List.countP_cons, hf]
    · simp only [updateFirstMatching]
      rw [if_neg (by simp [h])]
      simp [List.countP_cons, h, ih]

/-- Helper: when the store holds at most one key-matching row, every
key-matching row after `updateFirstMatching` is the image under `f` of
a key-matching row of the store. -/
lemma updateFirstMatching_mem (grant_id initiative_id : Int)
    (f : ResultRec → ResultRec) :
    ∀ store : List ResultRec,
      store.countP (fun rec => resultKeyMatches rec grant_id initiative_id) ≤ 1 →
      ∀ rec ∈ updateFirstMatching store grant_id initiative_id f,
        resultKeyMatches rec grant_id initiative_id = true →
        ∃ orig ∈ store,
          resultKeyMatches orig grant_id initiative_id = true ∧ rec = f orig := by
  intro store
  induction store with
  | nil => intro _ rec h; simp [updateFirstMatching] at h
  | cons r rest ih =>
    intro hcount rec hmem hkm
    by_cases h : resultKeyMatches r grant_id initiative_id = true
    · rw [updateFirstMatching, if_pos h] at hmem
      rcases List.mem_cons.mp hmem with rfl | hmem
      · exact ⟨r, List.mem_cons_self r rest, h, rfl⟩
      · exfalso
        have hc1 : (r :: rest).countP
              (fun rec => resultKeyMatches rec grant_id initiative_id)
            = rest.countP
              (fun rec => resultKeyMatches rec grant_id initiative_id) + 1 := by
          simp [List.countP_cons, h]
        have hz : rest.countP
            (fun rec => resultKeyMatches rec grant_id initiative_id) = 0 := by
          omega
        exact (List.countP_eq_zero.mp hz rec hmem) hkm
    · rw [updateFirstMatching, if_neg (by simp [h])] at hmem
      rcases List.mem_cons.mp hmem with rfl | hmem
      · exact absurd hkm h
      · have hc1 : (r :: rest).countP
              (fun rec => resultKeyMatches rec grant_id initiative_id)
            = rest.countP
              (fun rec => resultKeyMatches rec grant_id initiative_id) := by
          simp [List.countP_cons, h]
        have hrest : rest.countP
            (fun rec => resultKeyMatches rec grant_id initiative_id) ≤ 1 := by
          omega
        obtain ⟨orig, ho, hko, heq⟩ := ih hrest rec hmem hkm
        exact ⟨orig, List.mem_cons_of_mem r ho, hko, heq⟩

/-- Helper: after one Phase 1 save against a store with at most one row
for the key, exactly one row for the key exists and its
`prelim_rating` is the saved value. -/
lemma phase1_save_key_unique (store : List ResultRec)
    (grant_id initiative_id prelim_rating : Int)
    (hcount : store.countP
      (fun rec => resultKeyMatches rec grant_id initiative_id) ≤ 1) :
    (run_pipeline_phase1_save store grant_id initiative_id prelim_rating).countP
        (fun rec => resultKeyMatches rec grant_id initiative_id) = 1 ∧
    ∀ rec ∈ run_pipeline_phase1_save store grant_id initiative_id prelim_rating,
      resultKeyMatches rec grant_id initiative_id = true →
      rec.prelim_rating = prelim_rating := by
  have hkmself : resultKeyMatches
      (mkPrelimResult grant_id initiative_id prelim_rating) grant_id initiative_id
      = true := by simp [mkPrelimResult, resultKeyMatches]
  cases hget : ResultAccess.get_by_ids store grant_id initiative_id with
  | none =>
    have hz : store.countP
        (fun rec => resultKeyMatches rec grant_id initiative_id) = 0 :=
      List.countP_eq_zero.mpr (List.find?_eq_none.mp hget)
    refine ⟨?_, ?_⟩
    · simp [run_pipeline_phase1_save, hget, hz, hkmself]
    · intro rec hmem hkm
      rw [run_pipeline_phase1_save, hget] at hmem
      rcases List.mem_append.mp hmem with hmem | hmem
      · exact absurd hkm (List.countP_eq_zero.mp hz rec hmem)
      · rcases List.mem_singleton.mp hmem with rfl
        rfl
  | some x =>
    have hfind : store.find?
        (fun rec => resultKeyMatches rec grant_id initiative_id) = some x := hget
    have hpx := @List.find?_some ResultRec
      (fun rec => resultKeyMatches rec grant_id initiative_id) x store hfind
    have hpos : 0 < store.countP
        (fun rec => resultKeyMatches rec grant_id initiative_id) :=
      List.countP_pos_iff.mpr ⟨x, List.mem_of_find?_eq_some hfind, hpx⟩
    have hone : store.countP
        (fun rec => resultKeyMatches rec grant_id initiative_id) = 1 := by omega
    have hpres : ∀ rec : ResultRec,
        resultKeyMatches { rec with prelim_rating := prelim_rating }
            grant_id initiative_id
          = resultKeyMatches rec grant_id initiative_id := by
      intro rec; rfl
    refine ⟨?_, ?_⟩
    · rw [run_pipeline_phase1_save, hget,
        updateFirstMatching_countP grant_id initiative_id _ hpres store, hone]
    · intro rec hmem hkm
      rw [run_pipeline_phase1_save, hget] at hmem
      obtain ⟨orig, _, _, heq⟩ := updateFirstMatching_mem grant_id initiative_id
        _ store hcount rec hmem hkm
      rw [heq]

/-- C8: running the Phase 1 save twice for the same
(grant, initiative) key against a store satisfying the composite
primary-key invariant (at most one row per key) leaves exactly one row
for that key, and its `prelim_rating` is the second run's value: the
re-run overwrites by the composite key instead of inserting a
duplicate. -/
theorem phase1_rerun_overwrites_by_key :
    ∀ (store : List ResultRec) (grant_id initiative_id r1 r2 : Int),
    store.countP (fun rec => resultKeyMatches rec grant_id initiative_id) ≤ 1 →
    (run_pipeline_phase1_save
        (run_pipeline_phase1_save store grant_id initiative_id r1)
        grant_id initiative_id r2).countP
        (fun rec => resultKeyMatches rec grant_id initiative_id) = 1 ∧
    ∀ rec ∈ run_pipeline_phase1_save
        (run_pipeline_phase1_save store grant_id initiative_id r1)
        grant_id initiative_id r2,
      resultKeyMatches rec grant_id initiative_id = true →
      rec.prelim_rating = r2 := by
  intro store gid iid r1 r2 h
  have h1 := phase1_save_key_unique store gid iid r1 h
  exact phase1_save_key_unique _ gid iid r2 (by omega)

/-- Witness for `phase1_rerun_overwrites_by_key` on the empty store
with ratings 80 then 90. -/
theorem phase1_rerun_overwrites_by_key_witness :
    (run_pipeline_phase1_save (run_pipeline_phase1_save [] 1 2 80) 1 2 90).countP
        (fun rec => resultKeyMatches rec 1 2) = 1 ∧
    ∀ rec ∈ run_pipeline_phase1_save (run_pipeline_phase1_save [] 1 2 80) 1 2 90,
      resultKeyMatches rec 1 2 = true → rec.prelim_rating = 90 :=
  phase1_rerun_overwrites_by_key [] 1 2 80 90 (by decide)

/-- C9: the Phase 2 upsert for a grant whose store row was written by
Phase 1 (with the primary-key invariant) leaves exactly one row for the
key; that row carries the detailed analysis in all detailed fields
(description, criteria, amount, match rating, uncertainty rating,
deadline, sources, explanations) while its `prelim_rating` still equals
the value the Phase 1 row held. -/
theorem phase2_upsert_overwrites_details_preserves_prelim :
    ∀ (store : List ResultRec) (grant_id initiative_id : Int)
      (gemini_result : GeminiGrantAnalysis) (r0 : ResultRec),
    ResultAccess.get_by_ids store grant_id initiative_id = some r0 →
    store.countP (fun rec => resultKeyMatches rec grant_id initiative_id) ≤ 1 →
    (run_pipeline_phase2_save store grant_id initiative_id gemini_result).countP
        (fun rec => resultKeyMatches rec grant_id initiative_id) = 1 ∧
    ∀ rec ∈ run_pipeline_phase2_save store grant_id initiative_id gemini_result,
      resultKeyMatches rec grant_id initiative_id = true →
      rec.grant_description = some gemini_result.grant_description ∧
      rec.criteria = some gemini_result.criteria ∧
      rec.grant_amount = some gemini_result.grant_amount ∧
      rec.match_rating = some gemini_result.match_rating ∧
      rec.uncertainty_rating = some gemini_result.uncertainty_rating ∧
      rec.deadline = gemini_result.deadline ∧
      rec.sources = some gemini_result.sources ∧
      rec.explanations = some (gemini_result.match_rating_explanation,
        gemini_result.uncertainty_rating_explanation) ∧
      rec.prelim_rating = r0.prelim_rating := by
  intro store gid iid g r0 hget hcount
  have hsave : run_pipeline_phase2_save store gid iid g
      = updateFirstMatching store gid iid
          (copyDetailedFields (gemini_to_sqlalchemy g gid iid r0.prelim_rating)) := by
    simp [run_pipeline_phase2_save, ResultAccess.create_or_update,
      gemini_to_sqlalchemy, hget]
  rw [hsave]
  have hfind : store.find?
      (fun rec => resultKeyMatches rec gid iid) = some r0 := hget
  have hpx := @List.find?_some ResultRec
    (fun rec => resultKeyMatches rec gid iid) r0 store hfind
  have hpos : 0 < store.countP
      (fun rec => resultKeyMatches rec gid iid) :=
    List.countP_pos_iff.mpr ⟨r0, List.mem_of_find?_eq_some hfind, hpx⟩
  refine ⟨?_, ?_⟩
  · rw [updateFirstMatching_countP gid iid
      (copyDetailedFields (gemini_to_sqlalchemy g gid iid r0.prelim_rating))
      (fun rec => rfl) store]
    omega
  · intro rec hmem hkm
    obtain ⟨orig, _, _, heq⟩ := updateFirstMatching_mem gid iid _ store hcount
      rec hmem hkm
    rw [heq]
    simp [copyDetailedFields, gemini_to_sqlalchemy]

/-- A sample detailed analysis used as concrete input. -/
def gSample : GeminiGrantAnalysis :=
  ⟨"desc", ["crit"], "up to $10k", 77, 20, some "2026-01-31",
    ["http://a.com/g"], "match why", "uncertain why"⟩

/-- Witness for `phase2_upsert_overwrites_details_preserves_prelim` on
a one-row store written by Phase 1 with preliminary rating 80. -/
theorem phase2_upsert_overwrites_details_preserves_prelim_witness :
    (run_pipeline_phase2_save [mkPrelimResult 1 2 80] 1 2 gSample).countP
        (fun rec => resultKeyMatches rec 1 2) = 1 ∧
    ∀ rec ∈ run_pipeline_phase2_save [mkPrelimResult 1 2 80] 1 2 gSample,
      resultKeyMatches rec 1 2 = true →
      rec.grant_description = some gSample.grant_description ∧
      rec.criteria = some gSample.criteria ∧
      rec.grant_amount = some gSample.grant_amount ∧
      rec.match_rating = some gSample.match_rating ∧
      rec.uncertainty_rating = some gSample.uncertainty_rating ∧
      rec.deadline = gSample.deadline ∧
      rec.sources = some gSample.sources ∧
      rec.explanations = some (gSample.match_rating_explanation,
        gSample.uncertainty_rating_explanation) ∧
      rec.prelim_rating = (mkPrelimResult 1 2 80).prelim_rating :=
  phase2_upsert_overwrites_details_preserves_prelim [mkPrelimResult 1 2 80]
    1 2 gSample (mkPrelimResult 1 2 80) rfl (by decide)
